import Mathlib

/-!
Shallow embedding of the run/policy orchestration core of a CLI tool that
drives a remote infrastructure-as-code platform's run lifecycle.

The Go source represents run statuses as strings (type `tfe.RunStatus`);
we keep them as `String`.  Machine integers that carry policy counts are
Go `int`s and are embedded as `Int`.  Fallible calls return `Except`,
remote-API collaborators are embedded as records of pure functions, and
the poll-with-backoff loops are embedded with explicit fuel standing for
the number of retries the backoff budget still allows.
-/

namespace Tfc

/-- Run statuses, embedded as strings exactly as `tfe.RunStatus` values. -/
abbrev RunStatus := String

def RunApplied : RunStatus := "applied"
def RunApplyQueued : RunStatus := "apply_queued"
def RunCanceled : RunStatus := "canceled"
def RunCostEstimated : RunStatus := "cost_estimated"
def RunDiscarded : RunStatus := "discarded"
def RunErrored : RunStatus := "errored"
def RunPlanned : RunStatus := "planned"
def RunPlannedAndFinished : RunStatus := "planned_and_finished"
def RunPlannedAndSaved : RunStatus := "planned_and_saved"
def RunPolicyChecked : RunStatus := "policy_checked"
def RunPolicyOverride : RunStatus := "policy_override"
def RunPolicySoftFailed : RunStatus := "policy_soft_failed"
def RunPostPlanCompleted : RunStatus := "post_plan_completed"

/-- `ForceCancel` from run.go. -/
def ForceCancel : RunStatus := "force_canceled"

/-- `PrePlanAwaitingDecision` from run.go (the source binds this name to the
`pre_apply` string; we keep the binding exactly as written). -/
def PrePlanAwaitingDecision : RunStatus := "pre_apply_awaiting_decision"

/-- `PostPlanAwaitingDecision` from run.go. -/
def PostPlanAwaitingDecision : RunStatus := "post_plan_awaiting_decision"

/-- `PreApplyAwaitingDecision` from run.go. -/
def PreApplyAwaitingDecision : RunStatus := "pre_plan_awaiting_decision"

/-- `DiscardNoopStatus` from run.go. -/
def DiscardNoopStatus : List RunStatus :=
  [RunErrored, RunCanceled, RunApplied, RunPlanned, RunPlannedAndFinished]

/-- `CancelNoopStatus` from run.go. -/
def CancelNoopStatus : List RunStatus :=
  [RunErrored, RunDiscarded, RunApplied, RunPlanned, RunPlannedAndFinished,
   RunPlannedAndSaved]

/-- `NoopStatus` from run.go (shared by create and apply polling). -/
def NoopStatus : List RunStatus :=
  [RunErrored, RunCanceled, RunDiscarded, ForceCancel, PrePlanAwaitingDecision,
   PostPlanAwaitingDecision, PreApplyAwaitingDecision]

/-- `tfe.CostEstimate`, restricted to the field the core reads. -/
structure CostEstimate where
  id : String
  deriving Repr, DecidableEq

/-- `tfe.PolicyResult` (legacy policy-check result counts, Go `int`s). -/
structure PolicyResult where
  passed : Int
  softFailed : Int
  advisoryFailed : Int
  hardFailed : Int
  deriving Repr, DecidableEq

/-- `tfe.PolicyCheck`, restricted to the fields the core reads. -/
structure PolicyCheck where
  id : String
  status : String
  result : Option PolicyResult
  deriving Repr, DecidableEq

/-- `tfe.Run`, restricted to the fields the orchestration core reads. -/
structure Run where
  id : String
  status : RunStatus
  planOnly : Bool
  autoApply : Bool
  isDestroy : Bool
  savePlan : Bool
  costEstimate : Option CostEstimate
  policyChecks : List PolicyCheck
  deriving Repr, DecidableEq

/-- `hasCostEstimate` from run.go. -/
def hasCostEstimate (run : Run) : Bool :=
  match run.costEstimate with
  | some costEstimate => costEstimate.id != ""
  | none => false

/-- `hasPolicyChecks` from run.go. -/
def hasPolicyChecks (run : Run) : Bool :=
  run.policyChecks.length > 0

/-- `getDesiredRunStatus` from run.go. -/
def getDesiredRunStatus (run : Run) (policyChecksEnabled : Bool)
    (costEstimateEnabled : Bool) : List RunStatus :=
  let desiredStatus := [RunPolicySoftFailed, RunPlannedAndFinished, RunApplied]
  let desiredStatus :=
    if run.savePlan then desiredStatus ++ [RunPlannedAndSaved] else desiredStatus
  if run.planOnly then
    desiredStatus
  else if run.autoApply then
    if policyChecksEnabled then desiredStatus ++ [RunPolicyOverride] else desiredStatus
  else if costEstimateEnabled && !policyChecksEnabled then
    desiredStatus ++ [RunCostEstimated]
  else if policyChecksEnabled then
    desiredStatus ++ [RunPolicyChecked, RunPolicyOverride]
  else
    desiredStatus ++ [RunPlanned]

/-- The error message produced by `isRunComplete` when a noop status is hit:
`run has ended with: 'X' status` (the single quotes are built from their
character code). -/
def runEndedMsg (status : RunStatus) : String :=
  let q : String := String.mk [Char.ofNat 39]
  "run has ended with: " ++ q ++ status ++ q ++ " status"

/-- `isRunComplete` from run.go: first scan the desired statuses, then the
noop statuses, else report not-done. -/
def isRunComplete (run : Run) (desiredStatus : List RunStatus)
    (noopStatus : List RunStatus) : Bool × Option String :=
  if run.status ∈ desiredStatus then (true, none)
  else if run.status ∈ noopStatus then (true, some (runEndedMsg run.status))
  else (false, none)

/-- The desired-status set as the specification words it, precedence order:
base set; plus planned-and-saved when save_plan; returned as-is when
plan_only; else policy-override added when auto-apply and policy checks; else
(confirmable) cost-estimated when cost estimation and not policy checks, or
policy-checked and policy-override when policy checks, or planned when
neither. -/
def desiredRunStatusSpec (run : Run) (policyChecksEnabled : Bool)
    (costEstimateEnabled : Bool) : List RunStatus :=
  let base := [RunPolicySoftFailed, RunPlannedAndFinished, RunApplied]
  let base := if run.savePlan then base ++ [RunPlannedAndSaved] else base
  if run.planOnly then base
  else if run.autoApply then
    base ++ (if policyChecksEnabled then [RunPolicyOverride] else [])
  else if costEstimateEnabled && !policyChecksEnabled then base ++ [RunCostEstimated]
  else if policyChecksEnabled then base ++ [RunPolicyChecked, RunPolicyOverride]
  else base ++ [RunPlanned]

/-- C1: for every run and every combination of the flags, `getDesiredRunStatus`
returns exactly the status set given by the specification's precedence rules. -/
theorem getDesiredRunStatus_matches_spec (run : Run)
    (policyChecksEnabled costEstimateEnabled : Bool) (s : RunStatus) :
    s ∈ getDesiredRunStatus run policyChecksEnabled costEstimateEnabled ↔
      s ∈ desiredRunStatusSpec run policyChecksEnabled costEstimateEnabled := by
  obtain ⟨id, st, planOnly, autoApply, isDestroy, savePlan, ce, pcs⟩ := run
  cases planOnly <;> cases autoApply <;> cases savePlan <;>
    cases policyChecksEnabled <;> cases costEstimateEnabled <;>
      simp [getDesiredRunStatus, desiredRunStatusSpec]

/-- C2: `isRunComplete` classifies a polled status: done with no error on a
desired status; done with an error naming the status on a noop status; not
done (retry) otherwise. -/
theorem isRunComplete_classifies (run : Run)
    (desiredStatus noopStatus : List RunStatus) :
    (run.status ∈ desiredStatus →
        isRunComplete run desiredStatus noopStatus = (true, none)) ∧
    (run.status ∉ desiredStatus → run.status ∈ noopStatus →
        isRunComplete run desiredStatus noopStatus =
          (true, some (runEndedMsg run.status))) ∧
    (run.status ∉ desiredStatus → run.status ∉ noopStatus →
        isRunComplete run desiredStatus noopStatus = (false, none)) := by
  refine ⟨fun hd => ?_, fun hd hn => ?_, fun hd hn => ?_⟩
  · simp [isRunComplete, hd]
  · simp [isRunComplete, hd, hn]
  · simp [isRunComplete, hd, hn]

/-- Closed witness for C2: exercises all three branches of the classifier at
concrete inputs. -/
theorem isRunComplete_classifies_witness :
    (isRunComplete
        { id := "run-1a", status := "applied", planOnly := false,
          autoApply := false, isDestroy := false, savePlan := false,
          costEstimate := none, policyChecks := [] }
        [RunApplied] NoopStatus = (true, none)) ∧
    (isRunComplete
        { id := "run-1a", status := "errored", planOnly := false,
          autoApply := false, isDestroy := false, savePlan := false,
          costEstimate := none, policyChecks := [] }
        [RunApplied] NoopStatus = (true, some (runEndedMsg "errored"))) ∧
    (isRunComplete
        { id := "run-1a", status := "planning", planOnly := false,
          autoApply := false, isDestroy := false, savePlan := false,
          costEstimate := none, policyChecks := [] }
        [RunApplied] NoopStatus = (false, none)) := by
  refine ⟨(isRunComplete_classifies _ [RunApplied] NoopStatus).1 (by decide),
    (isRunComplete_classifies _ [RunApplied] NoopStatus).2.1 (by decide) (by decide),
    (isRunComplete_classifies _ [RunApplied] NoopStatus).2.2 (by decide) (by decide)⟩

/-- C3: for every operation, the desired-status set polled against and that
operation's noop set are disjoint: create (any flag combination) and apply use
`NoopStatus`, discard uses `DiscardNoopStatus`, cancel uses
`CancelNoopStatus`. -/
theorem desired_and_noop_disjoint (run : Run)
    (policyChecksEnabled costEstimateEnabled : Bool) :
    (∀ s ∈ getDesiredRunStatus run policyChecksEnabled costEstimateEnabled,
        s ∉ NoopStatus) ∧
    (∀ s ∈ [RunApplied], s ∉ NoopStatus) ∧
    (∀ s ∈ [RunDiscarded], s ∉ DiscardNoopStatus) ∧
    (∀ s ∈ [RunCanceled], s ∉ CancelNoopStatus) := by
  obtain ⟨id, st, planOnly, autoApply, isDestroy, savePlan, ce, pcs⟩ := run
  refine ⟨?_, by decide, by decide, by decide⟩
  cases planOnly <;> cases autoApply <;> cases savePlan <;>
    cases policyChecksEnabled <;> cases costEstimateEnabled <;>
      simp [getDesiredRunStatus] <;> decide

/-- Go error values as the core builds them: `errors.New` gives a base
message, `fmt.Errorf` with `%w` wraps an inner error with extra text. -/
inductive GoErr where
  | base (msg : String) : GoErr
  | wrap (msg : String) (inner : GoErr) : GoErr
  deriving Repr, DecidableEq

/-- `errors.Is`: an error matches a target when it is the target or wraps it. -/
def GoErr.is : GoErr → GoErr → Bool
  | .base m, target => GoErr.base m == target
  | .wrap m inner, target => (GoErr.wrap m inner == target) || inner.is target

def ErrInvalidRunID : GoErr := .base "invalid run ID format"
def ErrInvalidJustification : GoErr := .base "invalid justification"
def ErrInvalidRunStatus : GoErr := .base "run status does not allow this operation"
def ErrNoPolicyCheck : GoErr := .base "run has no policy evaluation"
def ErrPolicyIDRequired : GoErr := .base "either PolicyStageID or PolicyCheckID must be set"
def ErrPolicyIDMutualExclusive : GoErr := .base "PolicyStageID and PolicyCheckID are mutually exclusive"
def ErrInvalidPolicyStageID : GoErr := .base "invalid policy stage ID format"
def ErrInvalidPolicyCheckID : GoErr := .base "invalid policy check ID format"
def ErrNegativeCount : GoErr := .base "counts must be non-negative"
def ErrCountMismatch : GoErr := .base "total count does not match sum of individual counts"
def ErrOverrideMismatch : GoErr := .base "RequiresOverride mismatch with MandatoryFailedCount"
def ErrInvalidInitialStatus : GoErr := .base "invalid initial status for policy override"
def ErrInvalidFinalStatus : GoErr := .base "invalid final status for policy override"

/-! ### Retry timeout configuration (retry.go) -/

/-- `defaultTimeoutDuration` from retry.go, in seconds (one hour). -/
def defaultTimeoutDuration : Nat := 3600

/-- The process-wide `sync.Once` cell guarding the timeout override. -/
structure OnceCell where
  done : Bool
  deriving Repr, DecidableEq

/-- One call to `Timeout()` from retry.go: the local `timeout` variable starts
at the default on every call; the `once.Do` body runs only when the cell is
not yet done, reads the environment value and, when it parses, assigns the
call-local variable.  `parseDuration` stands for `time.ParseDuration` (`none`
on a parse error) and `env` for the value of `TF_MAX_TIMEOUT` (`""` when
unset). -/
def TimeoutCall (parseDuration : String → Option Nat) (env : String)
    (cell : OnceCell) : Nat × OnceCell :=
  if cell.done then (defaultTimeoutDuration, cell)
  else
    let cell' : OnceCell := ⟨true⟩
    if env = "" then (defaultTimeoutDuration, cell')
    else
      match parseDuration env with
      | none => (defaultTimeoutDuration, cell')
      | some t => (t, cell')

/-- Two successive `Timeout()` calls in one process (the once-cell starts
fresh, as at process start). -/
def TimeoutTwice (parseDuration : String → Option Nat) (env : String) :
    Nat × Nat :=
  let first := TimeoutCall parseDuration env ⟨false⟩
  let second := TimeoutCall parseDuration env first.2
  (first.1, second.1)

/-- C4: with `TF_MAX_TIMEOUT` holding a valid two-hour duration, the first
`Timeout()` call returns the override but the second call already returns the
one-hour default again — the parsed value lives only in a call-local
variable, so the `sync.Once` caches nothing and the claimed first-read-wins
caching does not happen. -/
theorem Timeout_second_call_drops_override :
    TimeoutTwice (fun s => if s = "2h" then some 7200 else none) "2h" =
      (7200, defaultTimeoutDuration) ∧ defaultTimeoutDuration ≠ 7200 := by
  exact ⟨rfl, by decide⟩

/-! ### Validation layer (policy model file) -/

/-- `validIDPattern` from the policy model file: the anchored regular
expression `[a-z]+-[a-zA-Z0-9]+`: one or more lowercase letters, a hyphen,
one or more alphanumerics.  Neither character class admits a hyphen, so
greedy matching is equivalent to splitting at the first non-lowercase
character. -/
def validIDPattern (s : String) : Bool :=
  let cs := s.toList
  let pre := cs.takeWhile Char.isLower
  let rest := cs.dropWhile Char.isLower
  match rest with
  | [] => false
  | c :: suf => !pre.isEmpty && c == Char.ofNat 45 && !suf.isEmpty &&
      suf.all Char.isAlphanum

/-- `validStringID` from the policy model file. -/
def validStringID (id : String) : Bool :=
  if id = "" then false else validIDPattern id

/-- `MinJustificationLength` from the policy model file. -/
def MinJustificationLength : Nat := 10

def RunStatusPostPlanAwaitingDecision : String := "post_plan_awaiting_decision"
def RunStatusPolicyOverride : String := "policy_override"
def RunStatusPostPlanCompleted : String := "post_plan_completed"
def RunStatusApplyQueued : String := "apply_queued"
def RunStatusDiscarded : String := "discarded"
def RunStatusErrored : String := "errored"

/-- `GetPolicyEvaluationOptions` from the policy model file. -/
structure GetPolicyEvaluationOptions where
  runID : String
  noWait : Bool
  deriving Repr, DecidableEq

/-- `GetPolicyEvaluationOptions.Validate`: `none` means the options are
valid, `some e` is the returned error. -/
def GetPolicyEvaluationOptions.Validate (o : GetPolicyEvaluationOptions) :
    Option GoErr :=
  if !validStringID o.runID then some ErrInvalidRunID else none

/-- `OverridePolicyOptions` from the policy model file. -/
structure OverridePolicyOptions where
  runID : String
  justification : String
  deriving Repr, DecidableEq

/-- `OverridePolicyOptions.Validate` from the policy model file. -/
def OverridePolicyOptions.Validate (o : OverridePolicyOptions) : Option GoErr :=
  if !validStringID o.runID then some ErrInvalidRunID
  else if o.justification = "" then some ErrInvalidJustification
  else if o.justification.length < MinJustificationLength then
    some (GoErr.wrap "must be at least 10 characters" ErrInvalidJustification)
  else none

/-- `PolicyOverride` result record from the policy model file (`time.Time`
is abstracted to a numeric timestamp; the core never reads it back). -/
structure PolicyOverride where
  runID : String
  policyStageID : String
  policyCheckID : String
  justification : String
  initialStatus : String
  finalStatus : String
  overrideComplete : Bool
  timestamp : Nat
  deriving Repr, DecidableEq

/-- `PolicyOverride.Validate` from the policy model file: the exact check
chain of the source, in source order. -/
def PolicyOverride.Validate (po : PolicyOverride) : Option GoErr :=
  if !validStringID po.runID then some ErrInvalidRunID
  else if po.policyStageID = "" && po.policyCheckID = "" then
    some ErrPolicyIDRequired
  else if po.policyStageID != "" && po.policyCheckID != "" then
    some ErrPolicyIDMutualExclusive
  else if po.policyStageID != "" && !validStringID po.policyStageID then
    some ErrInvalidPolicyStageID
  else if po.policyCheckID != "" && !validStringID po.policyCheckID then
    some ErrInvalidPolicyCheckID
  else if po.justification = "" then some ErrInvalidJustification
  else if po.initialStatus != RunStatusPostPlanAwaitingDecision then
    some ErrInvalidInitialStatus
  else if !(po.finalStatus == RunStatusPolicyOverride ||
      po.finalStatus == RunStatusPostPlanCompleted ||
      po.finalStatus == RunStatusApplyQueued ||
      po.finalStatus == RunStatusDiscarded ||
      po.finalStatus == RunStatusErrored) then
    some ErrInvalidFinalStatus
  else none

/-- C5 counterexample: a `PolicyOverride` record whose justification is
`"short"` — non-empty but well under 10 characters — with every other field
valid passes `PolicyOverride.Validate` with no error, so the claim that a
justification under 10 characters is always rejected is false. -/
theorem policyOverride_validate_accepts_short_justification :
    PolicyOverride.Validate
        { runID := "run-abc123", policyStageID := "ts-123", policyCheckID := "",
          justification := "short", initialStatus := "post_plan_awaiting_decision",
          finalStatus := "policy_override", overrideComplete := true,
          timestamp := 0 } = none ∧
    ("short" : String).length < MinJustificationLength ∧
    ("short" : String) ≠ "" := by
  exact ⟨by decide, by decide, by decide⟩

/-- C5 amended: `PolicyOverride.Validate` rejects only an empty
justification (a record it accepts always has a non-empty justification),
while the 10-character minimum is enforced by
`OverridePolicyOptions.Validate`, which never accepts a justification
shorter than `MinJustificationLength`. -/
theorem justification_validation_split (po : PolicyOverride)
    (o : OverridePolicyOptions) :
    (PolicyOverride.Validate po = none → po.justification ≠ "") ∧
    (OverridePolicyOptions.Validate o = none →
      MinJustificationLength ≤ o.justification.length) := by
  constructor
  · intro h hj
    unfold PolicyOverride.Validate at h
    rw [hj] at h
    split at h
    · simp at h
    split at h
    · simp at h
    split at h
    · simp at h
    split at h
    · simp at h
    split at h
    · simp at h
    simp at h
  · intro h
    unfold OverridePolicyOptions.Validate at h
    split at h
    · simp at h
    split at h
    · simp at h
    split at h
    · simp at h
    rename_i hlt
    unfold MinJustificationLength at hlt ⊢
    omega

/-- Closed witness for the amended C5 theorem, at concrete records accepted
by both validators. -/
theorem justification_validation_split_witness :
    (PolicyOverride.Validate
        { runID := "run-abc123", policyStageID := "ts-123", policyCheckID := "",
          justification := "short", initialStatus := "post_plan_awaiting_decision",
          finalStatus := "policy_override", overrideComplete := true,
          timestamp := 0 } = none →
      ("short" : String) ≠ "") ∧
    (OverridePolicyOptions.Validate
        { runID := "run-abc123", justification := "a full justification" } = none →
      MinJustificationLength ≤ ("a full justification" : String).length) := by
  exact justification_validation_split _ _

/-! ### Run lifecycle polling (run.go + retry.go) -/

/-- The error built by `retryableTimeoutError`/`newRetryTimeoutError`; the
retry engine returns it unwrapped when the backoff budget is exhausted. -/
def retryTimeoutError (operation : String) : GoErr :=
  .base (operation ++ " has exceeded maximum timeout")

/-- Outcome of one poll re-read of the run (`GetRun`): the run on success,
the surfaced remote error on failure (in which case the Go function also
returns a nil run pointer). -/
inductive PollRead where
  | ok (r : Run)
  | failed (e : GoErr)
  deriving Repr, DecidableEq

/-- The run pointer produced by a poll read: `nil` (`none`) on a failed
read. -/
def pollOutcome : PollRead → Option Run
  | .ok r => some r
  | .failed _ => none

/-- The shared poll-with-backoff body of `CreateRun` / `ApplyRun` /
`DiscardRun` / `CancelRun`: re-read the run (`poll i` is the outcome of the
i-th read), overwrite the caller's run view with the read result on every
iteration (`nil` on a failed read), surface a read error or a noop-status
error immediately, stop with no error when done, and return the
retryable-timeout error when the backoff budget (`fuel` remaining retries)
is exhausted.  Returns the final run view and the error `retry.Do`
surfaces. -/
def runPollLoop (operation : String) (desired noop : List RunStatus)
    (poll : Nat → PollRead) : Nat → Nat → Option Run × Option GoErr
  | i, 0 =>
    match poll i with
    | .failed e => (none, some e)
    | .ok r =>
      match isRunComplete r desired noop with
      | (_, some m) => (some r, some (GoErr.base m))
      | (true, none) => (some r, none)
      | (false, none) => (some r, some (retryTimeoutError operation))
  | i, fuel + 1 =>
    match poll i with
    | .failed e => (none, some e)
    | .ok r =>
      match isRunComplete r desired noop with
      | (_, some m) => (some r, some (GoErr.base m))
      | (true, none) => (some r, none)
      | (false, none) => runPollLoop operation desired noop poll (i + 1) fuel

/-- Polling phase of `runService.CreateRun` (after the successful create
call): desired set computed per run flags, shared `NoopStatus`. -/
def createRunPollPhase (run0 : Run) (policyChecksEnabled costEstimateEnabled : Bool)
    (poll : Nat → PollRead) (fuel : Nat) : Option Run × Option GoErr :=
  runPollLoop "create run "
    (getDesiredRunStatus run0 policyChecksEnabled costEstimateEnabled)
    NoopStatus poll 0 fuel

/-- Polling phase of `runService.ApplyRun`. -/
def applyRunPollPhase (poll : Nat → PollRead) (fuel : Nat) :
    Option Run × Option GoErr :=
  runPollLoop "apply run" [RunApplied] NoopStatus poll 0 fuel

/-- Polling phase of `runService.DiscardRun`. -/
def discardRunPollPhase (poll : Nat → PollRead) (fuel : Nat) :
    Option Run × Option GoErr :=
  runPollLoop "discard run" [RunDiscarded] DiscardNoopStatus poll 0 fuel

/-- Polling phase of `runService.CancelRun`. -/
def cancelRunPollPhase (poll : Nat → PollRead) (fuel : Nat) :
    Option Run × Option GoErr :=
  runPollLoop "cancel run" [RunCanceled] CancelNoopStatus poll 0 fuel

/-- The most recent run state observed by a successful read among poll
attempts `0..n`. -/
def lastObservedRun (poll : Nat → PollRead) : Nat → Option Run
  | 0 => pollOutcome (poll 0)
  | n + 1 =>
    match poll (n + 1) with
    | .ok r => some r
    | .failed _ => lastObservedRun poll n

/-- A run sitting at `planned`, as observed by the first poll of the
counterexample trace. -/
def runAtPlanned : Run :=
  { id := "run-c7x", status := "planned", planOnly := false, autoApply := false,
    isDestroy := false, savePlan := false, costEstimate := none,
    policyChecks := [] }

/-- Counterexample trace: the first read observes the run at `planned`, the
second read fails with a transport error. -/
def pollThenFail : Nat → PollRead := fun i =>
  if i = 0 then .ok runAtPlanned else .failed (.base "connection reset")

/-- C7 counterexample: polling an apply with the trace whose first read
observes the run at `planned` and whose second read fails returns a failure
whose run value is `nil`, although the most recent observed run state is the
`planned` run — the failed read overwrites the caller's view with the nil
pointer, losing the last observed state. -/
theorem applyRun_poll_loses_last_observed :
    (applyRunPollPhase pollThenFail 5).2 ≠ none ∧
    lastObservedRun pollThenFail 1 = some runAtPlanned ∧
    (applyRunPollPhase pollThenFail 5).1 = none ∧
    (applyRunPollPhase pollThenFail 5).1 ≠ lastObservedRun pollThenFail 1 := by
  refine ⟨by decide, by decide, by decide, by decide⟩

/-- A poll read on which the shared loop stops: a failed read, or a read
whose classification is anything other than not-yet-done. -/
def stopsPolling (desired noop : List RunStatus) : PollRead → Prop
  | .failed _ => True
  | .ok r => isRunComplete r desired noop ≠ (false, none)

/-- Helper for C7: the shared poll loop executes reads `i, i+1, ...` up to
the first stopping read, or up to the end of the backoff budget when none
stops earlier, and returns as its run view exactly the outcome of that final
executed read: every read strictly before the returned index was a
successful not-yet-done read the loop retried past, and the returned index
is either a stopping read or the last read the budget allows. -/
theorem runPollLoop_final_read (operation : String)
    (desired noop : List RunStatus) (poll : Nat → PollRead) :
    ∀ fuel i, ∃ j, i ≤ j ∧ j ≤ i + fuel ∧
      (∀ k, i ≤ k → k < j → ¬ stopsPolling desired noop (poll k)) ∧
      (stopsPolling desired noop (poll j) ∨ j = i + fuel) ∧
      (runPollLoop operation desired noop poll i fuel).1 = pollOutcome (poll j) := by
  intro fuel
  induction fuel with
  | zero =>
    intro i
    refine ⟨i, le_refl i, by omega, fun k hk1 hk2 => absurd hk2 (by omega),
      Or.inr (by omega), ?_⟩
    unfold runPollLoop
    cases hp : poll i with
    | failed e => simp [pollOutcome]
    | ok r =>
      rcases hic : isRunComplete r desired noop with ⟨done, err⟩
      cases done <;> cases err <;> simp [hic, pollOutcome]
  | succ fuel ih =>
    intro i
    cases hp : poll i with
    | failed e =>
      refine ⟨i, le_refl i, by omega, fun k hk1 hk2 => absurd hk2 (by omega),
        Or.inl (by rw [hp]; trivial), ?_⟩
      unfold runPollLoop
      simp [hp, pollOutcome]
    | ok r =>
      rcases hic : isRunComplete r desired noop with ⟨done, err⟩
      cases done with
      | true =>
        cases err with
        | none =>
          refine ⟨i, le_refl i, by omega, fun k hk1 hk2 => absurd hk2 (by omega),
            Or.inl (by rw [hp]; simp [stopsPolling, hic]), ?_⟩
          unfold runPollLoop
          simp [hp, hic, pollOutcome]
        | some m =>
          refine ⟨i, le_refl i, by omega, fun k hk1 hk2 => absurd hk2 (by omega),
            Or.inl (by rw [hp]; simp [stopsPolling, hic]), ?_⟩
          unfold runPollLoop
          simp [hp, hic, pollOutcome]
      | false =>
        cases err with
        | none =>
          obtain ⟨j, hj1, hj2, hbefore, hstop, heq⟩ := ih (i + 1)
          refine ⟨j, by omega, by omega, ?_, ?_, ?_⟩
          · intro k hk1 hk2
            by_cases hki : k = i
            · subst hki
              rw [hp]
              simp [stopsPolling, hic]
            · exact hbefore k (by omega) hk2
          · rcases hstop with h | h
            · exact Or.inl h
            · exact Or.inr (by omega)
          · unfold runPollLoop
            simp [hp, hic, heq]
        | some m =>
          refine ⟨i, le_refl i, by omega, fun k hk1 hk2 => absurd hk2 (by omega),
            Or.inl (by rw [hp]; simp [stopsPolling, hic]), ?_⟩
          unfold runPollLoop
          simp [hp, hic, pollOutcome]

/-- C7 amended: for every interleaving of successful and failing poll reads
and every backoff budget, each lifecycle operation's polling phase returns
as its run value exactly the result of the final poll read it executed — an
index `j` such that every read before `j` was a successful not-yet-done
read the loop retried past, and `j` itself is a stopping read (failed, or
classified done / noop) or the last read the budget allows.  The view is
the observed run when that final read succeeded (covering noop-status and
timeout failures), and nil when the final read itself failed (a failed read
overwrites the caller's view, so the previously observed state is not
returned). -/
theorem lifecycle_poll_returns_final_read (run0 : Run)
    (policyChecksEnabled costEstimateEnabled : Bool)
    (poll : Nat → PollRead) (fuel : Nat) :
    (∃ j, j ≤ fuel ∧
      (∀ k, k < j → ¬ stopsPolling
        (getDesiredRunStatus run0 policyChecksEnabled costEstimateEnabled)
        NoopStatus (poll k)) ∧
      (stopsPolling (getDesiredRunStatus run0 policyChecksEnabled costEstimateEnabled)
        NoopStatus (poll j) ∨ j = fuel) ∧
      (createRunPollPhase run0 policyChecksEnabled costEstimateEnabled poll fuel).1 =
        pollOutcome (poll j)) ∧
    (∃ j, j ≤ fuel ∧
      (∀ k, k < j → ¬ stopsPolling [RunApplied] NoopStatus (poll k)) ∧
      (stopsPolling [RunApplied] NoopStatus (poll j) ∨ j = fuel) ∧
      (applyRunPollPhase poll fuel).1 = pollOutcome (poll j)) ∧
    (∃ j, j ≤ fuel ∧
      (∀ k, k < j → ¬ stopsPolling [RunDiscarded] DiscardNoopStatus (poll k)) ∧
      (stopsPolling [RunDiscarded] DiscardNoopStatus (poll j) ∨ j = fuel) ∧
      (discardRunPollPhase poll fuel).1 = pollOutcome (poll j)) ∧
    (∃ j, j ≤ fuel ∧
      (∀ k, k < j → ¬ stopsPolling [RunCanceled] CancelNoopStatus (poll k)) ∧
      (stopsPolling [RunCanceled] CancelNoopStatus (poll j) ∨ j = fuel) ∧
      (cancelRunPollPhase poll fuel).1 = pollOutcome (poll j)) := by
  refine ⟨?_, ?_, ?_, ?_⟩
  · obtain ⟨j, hj1, hj2, hb, hs, heq⟩ := runPollLoop_final_read "create run "
      (getDesiredRunStatus run0 policyChecksEnabled costEstimateEnabled)
      NoopStatus poll fuel 0
    refine ⟨j, by omega, fun k hk => hb k (by omega) hk, ?_, heq⟩
    rcases hs with h | h
    · exact Or.inl h
    · exact Or.inr (by omega)
  · obtain ⟨j, hj1, hj2, hb, hs, heq⟩ := runPollLoop_final_read "apply run"
      [RunApplied] NoopStatus poll fuel 0
    refine ⟨j, by omega, fun k hk => hb k (by omega) hk, ?_, heq⟩
    rcases hs with h | h
    · exact Or.inl h
    · exact Or.inr (by omega)
  · obtain ⟨j, hj1, hj2, hb, hs, heq⟩ := runPollLoop_final_read "discard run"
      [RunDiscarded] DiscardNoopStatus poll fuel 0
    refine ⟨j, by omega, fun k hk => hb k (by omega) hk, ?_, heq⟩
    rcases hs with h | h
    · exact Or.inl h
    · exact Or.inr (by omega)
  · obtain ⟨j, hj1, hj2, hb, hs, heq⟩ := runPollLoop_final_read "cancel run"
      [RunCanceled] CancelNoopStatus poll fuel 0
    refine ⟨j, by omega, fun k hk => hb k (by omega) hk, ?_, heq⟩
    rcases hs with h | h
    · exact Or.inl h
    · exact Or.inr (by omega)

/-! ### Policy normalization layer data model -/

/-- `tfe.PolicyEvaluation.ResultCount` (modern API), Go `int`s. -/
structure ResultCount where
  passed : Int
  advisoryFailed : Int
  mandatoryFailed : Int
  errored : Int
  deriving Repr, DecidableEq

/-- `tfe.PolicyEvaluation` as listed under a task stage (modern API). -/
structure PolicyEvaluationItem where
  id : String
  status : String
  resultCount : Option ResultCount
  deriving Repr, DecidableEq

/-- `tfe.TaskStage`, restricted to the fields the core reads. -/
structure TaskStage where
  id : String
  stage : String
  status : String
  policyEvaluations : List PolicyEvaluationItem
  deriving Repr, DecidableEq

/-- One outcome inside a `tfe.PolicySetOutcome`. -/
structure PolicyOutcome where
  policyName : String
  enforcementLevel : String
  status : String
  description : String
  deriving Repr, DecidableEq

/-- `tfe.PolicySetOutcome`. -/
structure PolicySetOutcome where
  policySetName : String
  outcomes : List PolicyOutcome
  deriving Repr, DecidableEq

/-- `PolicyDetail` from the policy model file. -/
structure PolicyDetail where
  policyName : String
  enforcementLevel : String
  status : String
  description : String
  deriving Repr, DecidableEq

/-- `PolicyEvaluation`, the normalized record from the policy model file
(`RawAPIResponse`, an opaque pass-through of the upstream payload, is not
modelled: no claim reads it). -/
structure PolicyEvaluation where
  runID : String
  policyStageID : String
  policyCheckID : String
  totalCount : Int
  passedCount : Int
  advisoryFailedCount : Int
  mandatoryFailedCount : Int
  erroredCount : Int
  failedPolicies : List PolicyDetail
  status : String
  requiresOverride : Bool
  deriving Repr, DecidableEq

/-- The remote API client, embedded as a record of pure functions — one per
`go-tfe` operation the policy layer and override workflow consume.  The two
run-read variants stand for `Runs.ReadWithOptions` with their distinct
include sets, `readRun` for the bare `Runs.Read`. -/
structure TfeClient where
  readRun : String → Except GoErr Run
  readRunWithTaskStages : String → Except GoErr Run
  readRunWithPolicyChecks : String → Except GoErr Run
  listTaskStages : String → Except GoErr (List TaskStage)
  readTaskStage : String → Except GoErr TaskStage
  listPolicySetOutcomes : String → Except GoErr (List PolicySetOutcome)
  taskStageOverride : String → Except GoErr Unit
  policyCheckOverride : String → Except GoErr Unit
  createComment : String → String → Except GoErr Unit

/-- The remote calls the override workflow can issue, for effect tracking. -/
inductive ApiCall where
  | readRun (runID : String)
  | readRunWithPolicyChecks (runID : String)
  | listTaskStages (runID : String)
  | taskStageOverride (stageID : String)
  | policyCheckOverride (checkID : String)
  | createComment (runID : String)
  deriving Repr, DecidableEq

/-- Whether a call mutates policy state (either override endpoint). -/
def ApiCall.isOverride : ApiCall → Bool
  | .taskStageOverride _ => true
  | .policyCheckOverride _ => true
  | _ => false

/-! ### Policy evaluation retrieval (policy evaluation file) -/

/-- `isPolicyEvaluationComplete` from the policy evaluation file. -/
def isPolicyEvaluationComplete (run : Run) : Bool :=
  run.status == PostPlanAwaitingDecision || run.status == RunPolicyOverride ||
  run.status == RunPostPlanCompleted || run.status == RunPlannedAndFinished ||
  run.status == RunPolicyChecked || run.status == RunPolicySoftFailed

/-- A bounded Fibonacci backoff configuration: initial step delay, per-step
cap, and maximum total duration, all in seconds. -/
structure Backoff where
  initialDelay : Nat
  cappedDelay : Nat
  maxDuration : Nat
  deriving Repr, DecidableEq

def PolicyWaitMaxDuration : Nat := 30 * 60
def PolicyWaitInitialBackoff : Nat := 10
def PolicyWaitMaxBackoff : Nat := 30

/-- `policyWaitBackoffStrategy` from the policy evaluation file. -/
def policyWaitBackoffStrategy : Backoff :=
  { initialDelay := PolicyWaitInitialBackoff,
    cappedDelay := PolicyWaitMaxBackoff,
    maxDuration := PolicyWaitMaxDuration }

/-- The retry body of `waitForPolicyEvaluation`: `fuel` is the number of
retries the 30-minute backoff budget still allows. -/
def policyWaitLoop (c : TfeClient) (runID : String) : Nat → Except GoErr Run
  | 0 => .error (.base "policy evaluation still pending")
  | fuel + 1 =>
    match c.readRun runID with
    | .error e => .error (.wrap "error reading run" e)
    | .ok r =>
      if isPolicyEvaluationComplete r then .ok r
      else if r.status = RunDiscarded ∨ r.status = RunCanceled ∨ r.status = RunErrored then
        .error (.base ("run entered terminal state " ++ r.status ++
          " without policy evaluation"))
      else policyWaitLoop c runID fuel

/-- `waitForPolicyEvaluation` including its pre-check, plus the `NoWait`
short-circuit of `GetPolicyEvaluation`. -/
def waitPhase (c : TfeClient) (fuel : Nat) (options : GetPolicyEvaluationOptions)
    (run : Run) : Except GoErr Run :=
  if options.noWait then .ok run
  else if isPolicyEvaluationComplete run then .ok run
  else policyWaitLoop c run.id fuel

/-- Initial normalized record of `getPolicyFromTaskStages`, before count
aggregation. -/
def initPolicyEvaluation (runID stageID status : String) : PolicyEvaluation :=
  { runID := runID, policyStageID := stageID, policyCheckID := "",
    totalCount := 0, passedCount := 0, advisoryFailedCount := 0,
    mandatoryFailedCount := 0, erroredCount := 0, failedPolicies := [],
    status := status, requiresOverride := false }

/-- The synthetic failed-policy entry used when the policy-set-outcomes
fetch fails but mandatory failures exist. -/
def syntheticFailedDetail (evalID : String) (mandatoryFailed : Int) : PolicyDetail :=
  { policyName := "policy-eval-" ++ evalID, enforcementLevel := "mandatory",
    status := "failed",
    description := toString mandatoryFailed ++ " mandatory policies failed" }

/-- The failed-policy entries extracted from fetched policy-set outcomes:
every outcome whose status is `failed`, in iteration order. -/
def failedFromOutcomes (outcomes : List PolicySetOutcome) : List PolicyDetail :=
  outcomes.foldl (fun acc pso =>
    acc ++ (pso.outcomes.filter (fun o => o.status == "failed")).map
      (fun o => { policyName := o.policyName,
                  enforcementLevel := o.enforcementLevel,
                  status := o.status, description := o.description })) []

/-- Count-aggregation half of one iteration of the `getPolicyFromTaskStages`
loop: add the evaluation's result counts when present. -/
def accumCounts (acc : PolicyEvaluation) (pe : PolicyEvaluationItem) :
    PolicyEvaluation :=
  match pe.resultCount with
  | some rc =>
    { acc with passedCount := acc.passedCount + rc.passed,
               advisoryFailedCount := acc.advisoryFailedCount + rc.advisoryFailed,
               mandatoryFailedCount := acc.mandatoryFailedCount + rc.mandatoryFailed,
               erroredCount := acc.erroredCount + rc.errored }
  | none => acc

/-- Failed-policy-details half of one iteration of the
`getPolicyFromTaskStages` loop: when the evaluation has failures, fetch its
policy-set outcomes; on a fetch error fall back to one synthetic entry for
mandatory failures (best-effort), otherwise append every failed outcome. -/
def accumDetails (c : TfeClient) (acc : PolicyEvaluation)
    (pe : PolicyEvaluationItem) : PolicyEvaluation :=
  match pe.resultCount with
  | some rc =>
    if 0 < rc.mandatoryFailed ∨ 0 < rc.advisoryFailed then
      match c.listPolicySetOutcomes pe.id with
      | .error _ =>
        if 0 < rc.mandatoryFailed then
          { acc with failedPolicies :=
              acc.failedPolicies ++ [syntheticFailedDetail pe.id rc.mandatoryFailed] }
        else acc
      | .ok outcomes =>
        { acc with failedPolicies := acc.failedPolicies ++ failedFromOutcomes outcomes }
    else acc
  | none => acc

/-- One iteration of the `getPolicyFromTaskStages` aggregation loop: the
count aggregation followed by the failed-policy-details step (the two halves
touch disjoint fields, exactly as the source's loop body). -/
def accumEval (c : TfeClient) (acc : PolicyEvaluation)
    (pe : PolicyEvaluationItem) : PolicyEvaluation :=
  accumDetails c (accumCounts acc pe) pe

/-- `getPolicyFromTaskStages` from the policy evaluation file: find the
first pre-plan/post-plan stage, re-read it with policy evaluations expanded,
aggregate, then derive total count and the override flag. -/
def getPolicyFromTaskStages (c : TfeClient) (run : Run)
    (taskStages : List TaskStage) : Except GoErr PolicyEvaluation :=
  match taskStages.find? (fun stage =>
      stage.stage == "pre_plan" || stage.stage == "post_plan") with
  | none => .error ErrNoPolicyCheck
  | some policyStage =>
    match c.readTaskStage policyStage.id with
    | .error e => .error (.wrap "error reading task stage" e)
    | .ok detail =>
      let result := detail.policyEvaluations.foldl (accumEval c)
        (initPolicyEvaluation run.id detail.id detail.status)
      .ok { result with
        totalCount := result.passedCount + result.advisoryFailedCount +
          result.mandatoryFailedCount + result.erroredCount,
        requiresOverride := decide (0 < result.mandatoryFailedCount) }

/-- `getPolicyFromPolicyCheck` from the policy evaluation file (legacy API):
map the first policy check's counts into the normalized shape; when the
check carries no result, the zero-valued record is returned as-is. -/
def getPolicyFromPolicyCheck (run : Run) (check : PolicyCheck) :
    PolicyEvaluation :=
  let base : PolicyEvaluation :=
    { runID := run.id, policyStageID := "", policyCheckID := check.id,
      totalCount := 0, passedCount := 0, advisoryFailedCount := 0,
      mandatoryFailedCount := 0, erroredCount := 0, failedPolicies := [],
      status := check.status, requiresOverride := false }
  match check.result with
  | none => base
  | some res =>
    let passed := res.passed
    let advisory := res.softFailed + res.advisoryFailed
    let mandatory := res.hardFailed
    let errored : Int := if check.status = "errored" then 1 else 0
    { base with
      passedCount := passed, advisoryFailedCount := advisory,
      mandatoryFailedCount := mandatory, erroredCount := errored,
      totalCount := passed + advisory + mandatory + errored,
      requiresOverride := decide (0 < mandatory),
      failedPolicies :=
        if 0 < mandatory then
          [{ policyName := "policy-check-" ++ check.id,
             enforcementLevel := "mandatory", status := "failed",
             description := toString mandatory ++ " mandatory policies failed" }]
        else [] }

/-- The legacy fallback of `GetPolicyEvaluation`: re-read the run with
policy checks expanded; no checks at all is the distinguished
no-policy-evaluation error; otherwise normalize the first check. -/
def legacyPolicyPath (c : TfeClient) (runID : String) :
    Except GoErr PolicyEvaluation :=
  match c.readRunWithPolicyChecks runID with
  | .error e => .error (.wrap "error reading run for policy checks" e)
  | .ok run =>
    match run.policyChecks with
    | [] => .error ErrNoPolicyCheck
    | check :: _ => .ok (getPolicyFromPolicyCheck run check)

/-- The API-generation detection step of `GetPolicyEvaluation`: the modern
path runs only when the task-stage list call succeeds AND returns items; a
list error or an empty list both fall back to the legacy path, and a modern
path failure other than the no-policy-evaluation error is surfaced. -/
def resolvePolicyEvaluation (c : TfeClient) (run : Run) (runID : String) :
    Except GoErr PolicyEvaluation :=
  match c.listTaskStages run.id with
  | .ok taskStages =>
    if taskStages.length > 0 then
      match getPolicyFromTaskStages c run taskStages with
      | .ok result => .ok result
      | .error e =>
        if e.is ErrNoPolicyCheck then legacyPolicyPath c runID else .error e
    else legacyPolicyPath c runID
  | .error _ => legacyPolicyPath c runID

/-- `GetPolicyEvaluation` from the policy evaluation file: validate, read
the run, wait for evaluation unless `NoWait`, then resolve against the
detected API generation. -/
def GetPolicyEvaluation (c : TfeClient) (fuel : Nat)
    (options : GetPolicyEvaluationOptions) : Except GoErr PolicyEvaluation :=
  match GetPolicyEvaluationOptions.Validate options with
  | some e => .error e
  | none =>
    match c.readRunWithTaskStages options.runID with
    | .error e => .error (.wrap "error reading run" e)
    | .ok run =>
      match waitPhase c fuel options run with
      | .error e => .error e
      | .ok run2 => resolvePolicyEvaluation c run2 options.runID

/-- A legacy policy check used to witness the legacy fallback. -/
def legacyCheck : PolicyCheck :=
  { id := "polchk-1", status := "passed",
    result := some { passed := 2, softFailed := 0, advisoryFailed := 0,
                     hardFailed := 0 } }

/-- A run on a legacy-API instance, policies already checked. -/
def legacyRun : Run :=
  { id := "run-legacy1", status := "policy_checked", planOnly := false,
    autoApply := false, isDestroy := false, savePlan := false,
    costEstimate := none, policyChecks := [legacyCheck] }

/-- A client whose task-stage list endpoint errors (as an older enterprise
instance without that endpoint would), while run reads succeed. -/
def clientListError : TfeClient :=
  { readRun := fun _ => .ok legacyRun,
    readRunWithTaskStages := fun _ => .ok legacyRun,
    readRunWithPolicyChecks := fun _ => .ok legacyRun,
    listTaskStages := fun _ => .error (.base "task stages endpoint unavailable"),
    readTaskStage := fun _ => .error (.base "task stages endpoint unavailable"),
    listPolicySetOutcomes := fun _ => .error (.base "unused"),
    taskStageOverride := fun _ => .error (.base "unused"),
    policyCheckOverride := fun _ => .ok (),
    createComment := fun _ _ => .ok () }

/-- C6 counterexample: when listing task-stages returns an error,
`GetPolicyEvaluation` does take the legacy path and succeeds from the
legacy policy check — the list error is not surfaced — contradicting the
claim that the fallback happens only on absence, never on error. -/
theorem getPolicyEvaluation_list_error_takes_legacy_path :
    clientListError.listTaskStages legacyRun.id =
      .error (.base "task stages endpoint unavailable") ∧
    GetPolicyEvaluation clientListError 3
        { runID := "run-legacy1", noWait := false } =
      .ok (getPolicyFromPolicyCheck legacyRun legacyCheck) ∧
    (getPolicyFromPolicyCheck legacyRun legacyCheck).policyCheckID = "polchk-1" := by
  refine ⟨rfl, rfl, rfl⟩


/-! ### Policy override workflow (policy override file) -/

/-- Decision taken by the fixed status switch inside
`waitForOverrideCompletion` for one polled status. -/
inductive PollDecision where
  | success
  | fatal (msg : String)
  | retryable (msg : String)
  deriving Repr, DecidableEq

/-- Whether a decision is a non-retryable failure. -/
def PollDecision.isFatal : PollDecision → Bool
  | .fatal _ => true
  | _ => false

/-- The fixed switch of `waitForOverrideCompletion`, in source case order:
override-applied / post-plan-completed / apply-queued stop successfully;
discarded and canceled/errored fail; awaiting-decision and any unrecognized
status are retried. -/
def classifyOverridePoll (status : RunStatus) : PollDecision :=
  if status = RunPolicyOverride ∨ status = RunPostPlanCompleted ∨
      status = RunApplyQueued then
    .success
  else if status = RunDiscarded then
    .fatal "run was discarded during override"
  else if status = RunCanceled ∨ status = RunErrored then
    .fatal ("run entered terminal state " ++ status ++ " during override")
  else if status = PostPlanAwaitingDecision then
    .retryable "override still processing"
  else
    .retryable ("unexpected status: " ++ status)

/-- `waitForOverrideCompletion` from the policy override file, with the
issued run reads tracked; `fuel` is the number of retries the 30-minute
backoff budget still allows (the retry engine surfaces the last retryable
error when the budget runs out). -/
def waitForOverrideCompletion (c : TfeClient) (runID : String) :
    Nat → Except GoErr Run × List ApiCall
  | 0 => (.error (.base "override still processing"), [])
  | fuel + 1 =>
    match c.readRun runID with
    | .error e => (.error (.wrap "error reading run" e), [.readRun runID])
    | .ok r =>
      match classifyOverridePoll r.status with
      | .success => (.ok r, [.readRun runID])
      | .fatal m => (.error (.base m), [.readRun runID])
      | .retryable m =>
        match fuel with
        | 0 => (.error (.base m), [.readRun runID])
        | f + 1 =>
          let next := waitForOverrideCompletion c runID (f + 1)
          (next.1, .readRun runID :: next.2)

/-- The `PolicyOverride` record as `OverridePolicy` first builds it (the
wall-clock timestamp is abstracted to 0). -/
def initOverrideResult (run : Run) (justification : String) : PolicyOverride :=
  { runID := run.id, policyStageID := "", policyCheckID := "",
    justification := justification, initialStatus := run.status,
    finalStatus := "", overrideComplete := false, timestamp := 0 }

/-- `overrideViaTaskStage` from the policy override file: find the policy
stage, issue the stage override, best-effort comment, then wait for
completion. -/
def overrideViaTaskStage (c : TfeClient) (fuel : Nat) (run : Run)
    (result : PolicyOverride) (taskStages : List TaskStage) :
    Except GoErr PolicyOverride × List ApiCall :=
  match taskStages.find? (fun stage =>
      stage.stage == "pre_plan" || stage.stage == "post_plan") with
  | none => (.error ErrNoPolicyCheck, [])
  | some policyStage =>
    let result := { result with policyStageID := policyStage.id }
    match c.taskStageOverride policyStage.id with
    | .error e =>
      (.error (.wrap "error overriding task stage" e),
       [.taskStageOverride policyStage.id])
    | .ok _ =>
      let calls := [ApiCall.taskStageOverride policyStage.id,
                    ApiCall.createComment run.id]
      match waitForOverrideCompletion c run.id fuel with
      | (.error e, wcalls) => (.error e, calls ++ wcalls)
      | (.ok finalRun, wcalls) =>
        (.ok { result with finalStatus := finalRun.status,
                           overrideComplete := true },
         calls ++ wcalls)

/-- `overrideViaPolicyCheck` from the policy override file: take the first
policy check, issue the legacy check override (no comment parameter),
best-effort comment on the run, then wait for completion. -/
def overrideViaPolicyCheck (c : TfeClient) (fuel : Nat) (run : Run)
    (result : PolicyOverride) : Except GoErr PolicyOverride × List ApiCall :=
  match run.policyChecks with
  | [] => (.error ErrNoPolicyCheck, [])
  | check :: _ =>
    let result := { result with policyCheckID := check.id }
    match c.policyCheckOverride check.id with
    | .error e =>
      (.error (.wrap "error overriding policy check" e),
       [.policyCheckOverride check.id])
    | .ok _ =>
      let calls := [ApiCall.policyCheckOverride check.id,
                    ApiCall.createComment run.id]
      match waitForOverrideCompletion c run.id fuel with
      | (.error e, wcalls) => (.error e, calls ++ wcalls)
      | (.ok finalRun, wcalls) =>
        (.ok { result with finalStatus := finalRun.status,
                           overrideComplete := true },
         calls ++ wcalls)

/-- The legacy branch of `OverridePolicy`: re-read the run with policy
checks expanded, then override via the first check. -/
def legacyOverridePath (c : TfeClient) (fuel : Nat) (runID : String)
    (result : PolicyOverride) : Except GoErr PolicyOverride × List ApiCall :=
  match c.readRunWithPolicyChecks runID with
  | .error e =>
    (.error (.wrap "error reading run for policy checks" e),
     [.readRunWithPolicyChecks runID])
  | .ok run =>
    match run.policyChecks with
    | [] => (.error ErrNoPolicyCheck, [.readRunWithPolicyChecks runID])
    | _ :: _ =>
      let next := overrideViaPolicyCheck c fuel run result
      (next.1, .readRunWithPolicyChecks runID :: next.2)

/-- `OverridePolicy` from the policy override file, with the issued remote
calls tracked: validate options, read the run and require the
awaiting-decision status (`validateOverrideEligibility`), then detect the
API generation exactly as `GetPolicyEvaluation` does and override via the
matching endpoint. -/
def OverridePolicyRun (c : TfeClient) (fuel : Nat)
    (options : OverridePolicyOptions) :
    Except GoErr PolicyOverride × List ApiCall :=
  match OverridePolicyOptions.Validate options with
  | some e => (.error e, [])
  | none =>
    match c.readRun options.runID with
    | .error e => (.error (.wrap "error reading run" e), [.readRun options.runID])
    | .ok run =>
      if run.status ≠ PostPlanAwaitingDecision then
        (.error (.wrap ("run status is " ++ run.status ++
            ", expected post_plan_awaiting_decision") ErrInvalidRunStatus),
         [.readRun options.runID])
      else
        let result := initOverrideResult run options.justification
        match c.listTaskStages run.id with
        | .ok taskStages =>
          if taskStages.length > 0 then
            let next := overrideViaTaskStage c fuel run result taskStages
            (next.1, [ApiCall.readRun options.runID,
                      ApiCall.listTaskStages run.id] ++ next.2)
          else
            let next := legacyOverridePath c fuel options.runID result
            (next.1, [ApiCall.readRun options.runID,
                      ApiCall.listTaskStages run.id] ++ next.2)
        | .error _ =>
          let next := legacyOverridePath c fuel options.runID result
          (next.1, [ApiCall.readRun options.runID,
                    ApiCall.listTaskStages run.id] ++ next.2)

/-- C6 amended: for both `GetPolicyEvaluation` and `OverridePolicy`, the
fallback to the legacy policy-check shape happens on absence (the task-stage
list succeeds with zero items) and also on an error from the task-stage list
call: whenever listing task-stages returns an error, each function proceeds
exactly as its legacy path (re-reading the run with policy checks expanded)
and the list error is never surfaced. -/
theorem policy_fallback_on_list_error (c : TfeClient) (fuel : Nat) :
    (∀ (options : GetPolicyEvaluationOptions) (run run2 : Run) (e : GoErr),
      GetPolicyEvaluationOptions.Validate options = none →
      c.readRunWithTaskStages options.runID = Except.ok run →
      waitPhase c fuel options run = Except.ok run2 →
      c.listTaskStages run2.id = Except.error e →
      GetPolicyEvaluation c fuel options = legacyPolicyPath c options.runID) ∧
    (∀ (options : OverridePolicyOptions) (run : Run) (e : GoErr),
      OverridePolicyOptions.Validate options = none →
      c.readRun options.runID = Except.ok run →
      run.status = PostPlanAwaitingDecision →
      c.listTaskStages run.id = Except.error e →
      OverridePolicyRun c fuel options =
        ((legacyOverridePath c fuel options.runID
            (initOverrideResult run options.justification)).1,
         [ApiCall.readRun options.runID, ApiCall.listTaskStages run.id] ++
           (legacyOverridePath c fuel options.runID
             (initOverrideResult run options.justification)).2)) := by
  constructor
  · intro options run run2 e hv hread hwait hlist
    unfold GetPolicyEvaluation resolvePolicyEvaluation
    simp only [hv, hread, hwait, hlist]
  · intro options run e hv hread hstatus hlist
    unfold OverridePolicyRun
    simp only [hv, hread, hstatus, hlist]
    simp

/-- A run awaiting the post-plan decision on a legacy-API instance. -/
def overrideLegacyRun : Run :=
  { id := "run-leg2", status := "post_plan_awaiting_decision", planOnly := false,
    autoApply := false, isDestroy := false, savePlan := false,
    costEstimate := none, policyChecks := [legacyCheck] }

/-- A client whose task-stage list errors while the run awaits the
post-plan decision. -/
def clientOverrideListError : TfeClient :=
  { readRun := fun _ => .ok overrideLegacyRun,
    readRunWithTaskStages := fun _ => .ok overrideLegacyRun,
    readRunWithPolicyChecks := fun _ => .ok overrideLegacyRun,
    listTaskStages := fun _ => .error (.base "task stages endpoint unavailable"),
    readTaskStage := fun _ => .error (.base "unused"),
    listPolicySetOutcomes := fun _ => .error (.base "unused"),
    taskStageOverride := fun _ => .ok (),
    policyCheckOverride := fun _ => .ok (),
    createComment := fun _ _ => .ok () }

/-- Closed witness for the amended C6 theorem: both halves applied at
concrete list-erroring clients. -/
theorem policy_fallback_on_list_error_witness :
    GetPolicyEvaluation clientListError 3
        { runID := "run-legacy1", noWait := false } =
      legacyPolicyPath clientListError "run-legacy1" ∧
    OverridePolicyRun clientOverrideListError 4
        { runID := "run-leg2", justification := "a full justification" } =
      ((legacyOverridePath clientOverrideListError 4 "run-leg2"
          (initOverrideResult overrideLegacyRun "a full justification")).1,
       [ApiCall.readRun "run-leg2", ApiCall.listTaskStages "run-leg2"] ++
         (legacyOverridePath clientOverrideListError 4 "run-leg2"
           (initOverrideResult overrideLegacyRun "a full justification")).2) := by
  constructor
  · exact (policy_fallback_on_list_error clientListError 3).1
      { runID := "run-legacy1", noWait := false } legacyRun legacyRun
      (.base "task stages endpoint unavailable") (by decide) rfl rfl rfl
  · exact (policy_fallback_on_list_error clientOverrideListError 4).2
      { runID := "run-leg2", justification := "a full justification" }
      overrideLegacyRun (.base "task stages endpoint unavailable")
      (by decide) rfl rfl rfl

/-- C9: the override-completion wait classifies each polled status by the
fixed switch: success exactly on override-applied / post-plan-completed /
apply-queued; a non-retryable failure exactly on discarded (with its
dedicated message) and canceled / errored (terminal-state message); retry on
awaiting-decision and on every unrecognized status; under the 30-minute
backoff budget. -/
theorem overridePoll_classification (s : RunStatus) :
    (classifyOverridePoll s = PollDecision.success ↔
      (s = RunPolicyOverride ∨ s = RunPostPlanCompleted ∨ s = RunApplyQueued)) ∧
    ((classifyOverridePoll s).isFatal = true ↔
      (s = RunDiscarded ∨ s = RunCanceled ∨ s = RunErrored)) ∧
    (s = RunDiscarded →
      classifyOverridePoll s = PollDecision.fatal "run was discarded during override") ∧
    ((s = RunCanceled ∨ s = RunErrored) →
      classifyOverridePoll s =
        PollDecision.fatal ("run entered terminal state " ++ s ++ " during override")) ∧
    (s = PostPlanAwaitingDecision →
      classifyOverridePoll s = PollDecision.retryable "override still processing") ∧
    (s ∉ ([RunPolicyOverride, RunPostPlanCompleted, RunApplyQueued, RunDiscarded,
          RunCanceled, RunErrored, PostPlanAwaitingDecision] : List RunStatus) →
      classifyOverridePoll s = PollDecision.retryable ("unexpected status: " ++ s)) ∧
    policyWaitBackoffStrategy.maxDuration = 30 * 60 := by
  by_cases h1 : s = RunPolicyOverride
  · subst h1; decide
  by_cases h2 : s = RunPostPlanCompleted
  · subst h2; decide
  by_cases h3 : s = RunApplyQueued
  · subst h3; decide
  by_cases h4 : s = RunDiscarded
  · subst h4; decide
  by_cases h5 : s = RunCanceled
  · subst h5; decide
  by_cases h6 : s = RunErrored
  · subst h6; decide
  by_cases h7 : s = PostPlanAwaitingDecision
  · subst h7; decide
  have hcl : classifyOverridePoll s =
      PollDecision.retryable ("unexpected status: " ++ s) := by
    unfold classifyOverridePoll
    rw [if_neg (by tauto), if_neg h4, if_neg (by tauto), if_neg h7]
  refine ⟨?_, ?_, fun h => absurd h h4,
    fun h => absurd h (by tauto), fun h => absurd h h7, fun _ => hcl, rfl⟩
  · rw [hcl]
    simp [h1, h2, h3]
  · rw [hcl]
    simp [PollDecision.isFatal, h4, h5, h6]

/-- Closed witness for C9, exercising the discarded, terminal,
awaiting-decision and unrecognized-status branches. -/
theorem overridePoll_classification_witness :
    classifyOverridePoll "discarded" =
      PollDecision.fatal "run was discarded during override" ∧
    classifyOverridePoll "canceled" =
      PollDecision.fatal ("run entered terminal state " ++ "canceled" ++ " during override") ∧
    classifyOverridePoll "post_plan_awaiting_decision" =
      PollDecision.retryable "override still processing" ∧
    classifyOverridePoll "some_new_status" =
      PollDecision.retryable ("unexpected status: " ++ "some_new_status") :=
  ⟨(overridePoll_classification "discarded").2.2.1 rfl,
   (overridePoll_classification "canceled").2.2.2.1 (Or.inl rfl),
   (overridePoll_classification "post_plan_awaiting_decision").2.2.2.2.1 rfl,
   (overridePoll_classification "some_new_status").2.2.2.2.2.1 (by decide)⟩

/-- C8: when the run read by `OverridePolicy` is in any status other than
post_plan_awaiting_decision, the operation fails with a validation error
wrapping the invalid-run-status error and naming the expected status, and no
override API call (task-stage or policy-check) is issued. -/
theorem overridePolicy_wrong_status_fails_before_override (c : TfeClient)
    (fuel : Nat) (options : OverridePolicyOptions) (run : Run)
    (hv : OverridePolicyOptions.Validate options = none)
    (hread : c.readRun options.runID = Except.ok run)
    (hstatus : run.status ≠ PostPlanAwaitingDecision) :
    (OverridePolicyRun c fuel options).1 =
      Except.error (GoErr.wrap ("run status is " ++ run.status ++
        ", expected post_plan_awaiting_decision") ErrInvalidRunStatus) ∧
    ∀ call ∈ (OverridePolicyRun c fuel options).2, call.isOverride = false := by
  have hrun : OverridePolicyRun c fuel options =
      (Except.error (GoErr.wrap ("run status is " ++ run.status ++
        ", expected post_plan_awaiting_decision") ErrInvalidRunStatus),
       [ApiCall.readRun options.runID]) := by
    unfold OverridePolicyRun
    simp only [hv, hread, if_pos hstatus]
  refine ⟨by rw [hrun], ?_⟩
  rw [hrun]
  intro call hc
  simp only [List.mem_singleton] at hc
  subst hc
  rfl

/-- An awaiting-decision run used in override witnesses. -/
def runAwaitingPlanned : Run :=
  { id := "run-ovr1", status := "planned", planOnly := false, autoApply := false,
    isDestroy := false, savePlan := false, costEstimate := none,
    policyChecks := [legacyCheck] }

/-- A client whose run read observes the run at `planned`. -/
def clientRunPlanned : TfeClient :=
  { readRun := fun _ => .ok runAwaitingPlanned,
    readRunWithTaskStages := fun _ => .ok runAwaitingPlanned,
    readRunWithPolicyChecks := fun _ => .ok runAwaitingPlanned,
    listTaskStages := fun _ => .ok [],
    readTaskStage := fun _ => .error (.base "unused"),
    listPolicySetOutcomes := fun _ => .error (.base "unused"),
    taskStageOverride := fun _ => .ok (),
    policyCheckOverride := fun _ => .ok (),
    createComment := fun _ _ => .ok () }

/-- Closed witness for C8: an override attempted while the run is at
`planned` fails with the invalid-run-status validation error and issues no
override call. -/
theorem overridePolicy_wrong_status_witness :
    (OverridePolicyRun clientRunPlanned 4
        { runID := "run-ovr1", justification := "a full justification" }).1 =
      Except.error (GoErr.wrap ("run status is " ++ "planned" ++
        ", expected post_plan_awaiting_decision") ErrInvalidRunStatus) ∧
    ∀ call ∈ (OverridePolicyRun clientRunPlanned 4
        { runID := "run-ovr1", justification := "a full justification" }).2,
      call.isOverride = false := by
  exact overridePolicy_wrong_status_fails_before_override clientRunPlanned 4
    { runID := "run-ovr1", justification := "a full justification" }
    runAwaitingPlanned (by decide) rfl (by decide)

/-! ### Record invariant of the normalized policy evaluation (C10) -/

/-- The record invariant of the normalized `PolicyEvaluation`: counts are
consistent and non-negative, the override flag matches the mandatory-failed
count, and exactly one of the stage / check identifiers is set. -/
def PolicyEvaluation.invariantHolds (pe : PolicyEvaluation) : Prop :=
  pe.totalCount = pe.passedCount + pe.advisoryFailedCount +
      pe.mandatoryFailedCount + pe.erroredCount ∧
  (pe.requiresOverride = true ↔ 0 < pe.mandatoryFailedCount) ∧
  0 ≤ pe.passedCount ∧ 0 ≤ pe.advisoryFailedCount ∧
  0 ≤ pe.mandatoryFailedCount ∧ 0 ≤ pe.erroredCount ∧ 0 ≤ pe.totalCount ∧
  ((pe.policyStageID = "" ∧ pe.policyCheckID ≠ "") ∨
   (pe.policyStageID ≠ "" ∧ pe.policyCheckID = ""))

/-- Well-formedness of an upstream task stage: a real identifier and
non-negative result counts (counts are sizes of policy lists upstream). -/
def TaskStageWF (st : TaskStage) : Prop :=
  st.id ≠ "" ∧ ∀ pe ∈ st.policyEvaluations, ∀ rc, pe.resultCount = some rc →
    0 ≤ rc.passed ∧ 0 ≤ rc.advisoryFailed ∧ 0 ≤ rc.mandatoryFailed ∧
    0 ≤ rc.errored

/-- Well-formedness of an upstream legacy policy check. -/
def PolicyCheckWF (check : PolicyCheck) : Prop :=
  check.id ≠ "" ∧ ∀ res, check.result = some res →
    0 ≤ res.passed ∧ 0 ≤ res.softFailed ∧ 0 ≤ res.advisoryFailed ∧
    0 ≤ res.hardFailed

/-- Well-formedness of the remote API data a client can serve: every task
stage read and every policy check attached to a run read is well-formed. -/
def TfeClient.WF (c : TfeClient) : Prop :=
  (∀ i st, c.readTaskStage i = Except.ok st → TaskStageWF st) ∧
  (∀ i r, c.readRunWithPolicyChecks i = Except.ok r →
    ∀ check ∈ r.policyChecks, PolicyCheckWF check)

/-- The details half of an aggregation iteration touches only the
failed-policies list: identifiers and all counts pass through unchanged. -/
theorem accumDetails_fields (c : TfeClient) (acc : PolicyEvaluation)
    (pe : PolicyEvaluationItem) :
    (accumDetails c acc pe).runID = acc.runID ∧
    (accumDetails c acc pe).policyStageID = acc.policyStageID ∧
    (accumDetails c acc pe).policyCheckID = acc.policyCheckID ∧
    (accumDetails c acc pe).passedCount = acc.passedCount ∧
    (accumDetails c acc pe).advisoryFailedCount = acc.advisoryFailedCount ∧
    (accumDetails c acc pe).mandatoryFailedCount = acc.mandatoryFailedCount ∧
    (accumDetails c acc pe).erroredCount = acc.erroredCount := by
  rcases h : pe.resultCount with _ | rc <;> simp only [accumDetails, h]
  · simp
  · split
    · rcases ho : c.listPolicySetOutcomes pe.id with e | outs <;> simp only [ho]
      · split <;> simp
      · simp
    · simp

/-- The counts half of an aggregation iteration leaves the identifiers
unchanged and either keeps the counts (no result) or adds the result's
counts. -/
theorem accumCounts_spec (acc : PolicyEvaluation) (pe : PolicyEvaluationItem) :
    (accumCounts acc pe).runID = acc.runID ∧
    (accumCounts acc pe).policyStageID = acc.policyStageID ∧
    (accumCounts acc pe).policyCheckID = acc.policyCheckID ∧
    ((pe.resultCount = none ∧ accumCounts acc pe = acc) ∨
     (∃ rc, pe.resultCount = some rc ∧
        (accumCounts acc pe).passedCount = acc.passedCount + rc.passed ∧
        (accumCounts acc pe).advisoryFailedCount =
          acc.advisoryFailedCount + rc.advisoryFailed ∧
        (accumCounts acc pe).mandatoryFailedCount =
          acc.mandatoryFailedCount + rc.mandatoryFailed ∧
        (accumCounts acc pe).erroredCount = acc.erroredCount + rc.errored)) := by
  rcases h : pe.resultCount with _ | rc <;> simp only [accumCounts, h]
  · simp
  · refine ⟨?_, ?_, ?_, Or.inr ⟨rc, ?_, ?_, ?_, ?_, ?_⟩⟩ <;> simp [h]

/-- One aggregation iteration preserves the identifiers and keeps the counts
non-negative whenever the incoming result counts are. -/
theorem accumEval_invariant_step (c : TfeClient) (acc : PolicyEvaluation)
    (pe : PolicyEvaluationItem)
    (hwf : ∀ rc, pe.resultCount = some rc →
      0 ≤ rc.passed ∧ 0 ≤ rc.advisoryFailed ∧ 0 ≤ rc.mandatoryFailed ∧
      0 ≤ rc.errored)
    (h0 : 0 ≤ acc.passedCount ∧ 0 ≤ acc.advisoryFailedCount ∧
      0 ≤ acc.mandatoryFailedCount ∧ 0 ≤ acc.erroredCount) :
    (accumEval c acc pe).runID = acc.runID ∧
    (accumEval c acc pe).policyStageID = acc.policyStageID ∧
    (accumEval c acc pe).policyCheckID = acc.policyCheckID ∧
    (0 ≤ (accumEval c acc pe).passedCount ∧
     0 ≤ (accumEval c acc pe).advisoryFailedCount ∧
     0 ≤ (accumEval c acc pe).mandatoryFailedCount ∧
     0 ≤ (accumEval c acc pe).erroredCount) := by
  obtain ⟨d1, d2, d3, d4, d5, d6, d7⟩ := accumDetails_fields c (accumCounts acc pe) pe
  obtain ⟨c1, c2, c3, hc⟩ := accumCounts_spec acc pe
  unfold accumEval
  refine ⟨d1.trans c1, d2.trans c2, d3.trans c3, ?_⟩
  rw [d4, d5, d6, d7]
  rcases hc with ⟨_, heq⟩ | ⟨rc, hrc, e1, e2, e3, e4⟩
  · rw [heq]
    exact ⟨h0.1, h0.2.1, h0.2.2.1, h0.2.2.2⟩
  · obtain ⟨w1, w2, w3, w4⟩ := hwf rc hrc
    rw [e1, e2, e3, e4]
    exact ⟨add_nonneg h0.1 w1, add_nonneg h0.2.1 w2,
      add_nonneg h0.2.2.1 w3, add_nonneg h0.2.2.2 w4⟩

/-- The whole aggregation fold preserves the identifiers of its starting
record and, starting from non-negative counts over well-formed evaluations,
ends with non-negative counts. -/
theorem foldl_accumEval_invariant (c : TfeClient) :
    ∀ (l : List PolicyEvaluationItem) (acc : PolicyEvaluation),
      (∀ pe ∈ l, ∀ rc, pe.resultCount = some rc →
        0 ≤ rc.passed ∧ 0 ≤ rc.advisoryFailed ∧ 0 ≤ rc.mandatoryFailed ∧
        0 ≤ rc.errored) →
      (0 ≤ acc.passedCount ∧ 0 ≤ acc.advisoryFailedCount ∧
        0 ≤ acc.mandatoryFailedCount ∧ 0 ≤ acc.erroredCount) →
      (l.foldl (accumEval c) acc).runID = acc.runID ∧
      (l.foldl (accumEval c) acc).policyStageID = acc.policyStageID ∧
      (l.foldl (accumEval c) acc).policyCheckID = acc.policyCheckID ∧
      (0 ≤ (l.foldl (accumEval c) acc).passedCount ∧
       0 ≤ (l.foldl (accumEval c) acc).advisoryFailedCount ∧
       0 ≤ (l.foldl (accumEval c) acc).mandatoryFailedCount ∧
       0 ≤ (l.foldl (accumEval c) acc).erroredCount) := by
  intro l
  induction l with
  | nil => exact fun acc _ h0 => ⟨rfl, rfl, rfl, h0⟩
  | cons pe rest ih =>
    intro acc hwf h0
    have step := accumEval_invariant_step c acc pe
      (hwf pe (List.mem_cons_self pe rest)) h0
    have tail := ih (accumEval c acc pe)
      (fun q hq => hwf q (List.mem_cons_of_mem pe hq)) step.2.2.2
    simp only [List.foldl_cons]
    exact ⟨tail.1.trans step.1, tail.2.1.trans step.2.1,
      tail.2.2.1.trans step.2.2.1, tail.2.2.2⟩

/-- The modern path constructs only invariant-respecting records, given
well-formed task stage reads. -/
theorem getPolicyFromTaskStages_invariant (c : TfeClient) (run : Run)
    (taskStages : List TaskStage) (pe : PolicyEvaluation)
    (hwf : ∀ i st, c.readTaskStage i = Except.ok st → TaskStageWF st)
    (h : getPolicyFromTaskStages c run taskStages = Except.ok pe) :
    pe.invariantHolds := by
  unfold getPolicyFromTaskStages at h
  rcases hf : taskStages.find? (fun stage =>
      stage.stage == "pre_plan" || stage.stage == "post_plan") with _ | policyStage <;>
    simp only [hf] at h
  · simp at h
  · rcases hr : c.readTaskStage policyStage.id with e | detail <;> simp only [hr] at h
    · simp at h
    · obtain ⟨hid, hevals⟩ := hwf policyStage.id detail hr
      have base := foldl_accumEval_invariant c detail.policyEvaluations
        (initPolicyEvaluation run.id detail.id detail.status) hevals
        (by simp [initPolicyEvaluation])
      simp only [Except.ok.injEq] at h
      subst h
      obtain ⟨b1, b2, b3, p1, p2, p3, p4⟩ := base
      refine ⟨rfl, ?_, p1, p2, p3, p4, ?_, Or.inr ⟨?_, ?_⟩⟩
      · simp [decide_eq_true_iff]
      · have : (0:Int) ≤ (detail.policyEvaluations.foldl (accumEval c)
            (initPolicyEvaluation run.id detail.id detail.status)).passedCount +
            (detail.policyEvaluations.foldl (accumEval c)
            (initPolicyEvaluation run.id detail.id detail.status)).advisoryFailedCount +
            (detail.policyEvaluations.foldl (accumEval c)
            (initPolicyEvaluation run.id detail.id detail.status)).mandatoryFailedCount +
            (detail.policyEvaluations.foldl (accumEval c)
            (initPolicyEvaluation run.id detail.id detail.status)).erroredCount := by
          linarith
        exact this
      · show (detail.policyEvaluations.foldl (accumEval c)
            (initPolicyEvaluation run.id detail.id detail.status)).policyStageID ≠ ""
        rw [b2]
        exact hid
      · show (detail.policyEvaluations.foldl (accumEval c)
            (initPolicyEvaluation run.id detail.id detail.status)).policyCheckID = ""
        rw [b3]
        rfl

/-- The legacy normalization constructs only invariant-respecting records,
with or without result counts on the check. -/
theorem getPolicyFromPolicyCheck_invariant (run : Run) (check : PolicyCheck)
    (hid : check.id ≠ "")
    (hres : ∀ res, check.result = some res →
      0 ≤ res.passed ∧ 0 ≤ res.softFailed ∧ 0 ≤ res.advisoryFailed ∧
      0 ≤ res.hardFailed) :
    (getPolicyFromPolicyCheck run check).invariantHolds := by
  unfold getPolicyFromPolicyCheck PolicyEvaluation.invariantHolds
  rcases h : check.result with _ | res <;> simp only [h]
  · refine ⟨by decide, by simp, by decide, by decide, by decide, by decide,
      by decide, Or.inl ⟨by trivial, hid⟩⟩
  · obtain ⟨hp, hs, ha, hh⟩ := hres res h
    have he : (0:Int) ≤ if check.status = "errored" then 1 else 0 := by
      split <;> decide
    refine ⟨by trivial, by simp [decide_eq_true_iff], hp, add_nonneg hs ha, hh, he,
      ?_, Or.inl ⟨by trivial, hid⟩⟩
    have : (0:Int) ≤ res.passed + (res.softFailed + res.advisoryFailed) +
        res.hardFailed + (if check.status = "errored" then 1 else 0) := by
      linarith
    exact this

/-- The legacy fallback path yields only invariant-respecting records. -/
theorem legacyPolicyPath_invariant (c : TfeClient) (runID : String)
    (pe : PolicyEvaluation)
    (hwf : ∀ i r, c.readRunWithPolicyChecks i = Except.ok r →
      ∀ check ∈ r.policyChecks, PolicyCheckWF check)
    (h : legacyPolicyPath c runID = Except.ok pe) : pe.invariantHolds := by
  unfold legacyPolicyPath at h
  rcases hr : c.readRunWithPolicyChecks runID with e | run <;> simp only [hr] at h
  · simp at h
  · rcases hc : run.policyChecks with _ | ⟨check, rest⟩ <;> simp only [hc] at h
    · simp at h
    · simp only [Except.ok.injEq] at h
      have hwfc := hwf runID run hr check (by rw [hc]; exact List.mem_cons_self check rest)
      exact h ▸ getPolicyFromPolicyCheck_invariant run check hwfc.1 hwfc.2

/-- The detection step yields only invariant-respecting records. -/
theorem resolvePolicyEvaluation_invariant (c : TfeClient) (run : Run)
    (runID : String) (pe : PolicyEvaluation) (hwf : c.WF)
    (h : resolvePolicyEvaluation c run runID = Except.ok pe) :
    pe.invariantHolds := by
  unfold resolvePolicyEvaluation at h
  rcases hl : c.listTaskStages run.id with e | taskStages <;> simp only [hl] at h
  · exact legacyPolicyPath_invariant c runID pe hwf.2 h
  · split at h
    · rcases hm : getPolicyFromTaskStages c run taskStages with e2 | result <;>
        simp only [hm] at h
      · split at h
        · exact legacyPolicyPath_invariant c runID pe hwf.2 h
        · simp at h
      · simp only [Except.ok.injEq] at h
        exact getPolicyFromTaskStages_invariant c run taskStages pe hwf.1
          (by rw [hm, h])
    · exact legacyPolicyPath_invariant c runID pe hwf.2 h

/-- C10: every normalized policy evaluation successfully returned by
`GetPolicyEvaluation` — via the modern task-stage path or the legacy
policy-check path, including the legacy case with no result counts —
satisfies the record invariant by construction, given well-formed upstream
data (non-negative upstream counts, non-empty upstream identifiers). -/
theorem getPolicyEvaluation_invariant (c : TfeClient) (fuel : Nat)
    (options : GetPolicyEvaluationOptions) (pe : PolicyEvaluation)
    (hwf : c.WF) (h : GetPolicyEvaluation c fuel options = Except.ok pe) :
    pe.invariantHolds := by
  unfold GetPolicyEvaluation at h
  rcases hv : GetPolicyEvaluationOptions.Validate options with _ | e <;>
    simp only [hv] at h
  · rcases hr : c.readRunWithTaskStages options.runID with e | run <;>
      simp only [hr] at h
    · simp at h
    · rcases hw : waitPhase c fuel options run with e | run2 <;> simp only [hw] at h
      · simp at h
      · exact resolvePolicyEvaluation_invariant c run2 options.runID pe hwf h
  · simp at h

/-- A legacy check carrying no result counts, for the C10 witness. -/
def wCheckNoResult : PolicyCheck :=
  { id := "polchk-9", status := "errored", result := none }

/-- A legacy-API run carrying the result-less check. -/
def wRunLegacy : Run :=
  { id := "run-w10", status := "policy_checked", planOnly := false,
    autoApply := false, isDestroy := false, savePlan := false,
    costEstimate := none, policyChecks := [wCheckNoResult] }

/-- A well-formed client serving only the legacy shape. -/
def clientW10 : TfeClient :=
  { readRun := fun _ => .ok wRunLegacy,
    readRunWithTaskStages := fun _ => .ok wRunLegacy,
    readRunWithPolicyChecks := fun _ => .ok wRunLegacy,
    listTaskStages := fun _ => .ok [],
    readTaskStage := fun _ => .error (.base "no such stage"),
    listPolicySetOutcomes := fun _ => .error (.base "unused"),
    taskStageOverride := fun _ => .ok (),
    policyCheckOverride := fun _ => .ok (),
    createComment := fun _ _ => .ok () }

/-- Closed witness for C10: the concrete legacy client returns the
normalized record of the result-less check, and the invariant holds for
it. -/
theorem getPolicyEvaluation_invariant_witness :
    GetPolicyEvaluation clientW10 2 { runID := "run-w10", noWait := true } =
      Except.ok (getPolicyFromPolicyCheck wRunLegacy wCheckNoResult) ∧
    (getPolicyFromPolicyCheck wRunLegacy wCheckNoResult).invariantHolds := by
  have hwf : clientW10.WF := by
    constructor
    · intro i st hst
      simp [clientW10] at hst
    · intro i r hr
      simp only [clientW10] at hr
      simp only [Except.ok.injEq] at hr
      subst hr
      intro check hck
      simp only [wRunLegacy, List.mem_singleton] at hck
      subst hck
      refine ⟨by decide, ?_⟩
      intro res hres
      simp [wCheckNoResult] at hres
  exact ⟨rfl, getPolicyEvaluation_invariant clientW10 2
    { runID := "run-w10", noWait := true }
    (getPolicyFromPolicyCheck wRunLegacy wCheckNoResult) hwf rfl⟩

end Tfc
